import Mathlib

/-!
Verification development for the `extract-audio` repository.

Shallow embeddings of:
* the archive URL resolver `construct_wayback_url` and the timestamp
  extraction of `find_mp3_urls_from_archive` (`src/cratedigger/scrape.py`),
* the resumable downloader `download_mp3` (`src/cratedigger/scrape.py`),
* the set-difference reconciliation of `download_spotify_content`
  (`src/cratedigger/spotify.py`, `src/extractor/spotify.py`),
* the flattening copier `copy_audio_files` (`src/extractor/convert.py`).
-/

namespace ExtractAudio

/-! ### Regex primitives of `scrape.py`

`re.search(r"https?://[^/]+", s)` and `re.search(r"/web/(\d+)/", s)` are
modelled as leftmost-match scans over the character list of `s`.  At a given
start position, `https?://[^/]+` matches exactly when the literal
`https://` or `http://` stands there followed by at least one character
other than a slash; the greedy `[^/]+` then takes the maximal run of
non-slash characters.  `\d+` is ASCII digits (the inputs here are URLs). -/

/-- Match of `https?://[^/]+` anchored at the head of `cs`, returning the
whole match (scheme and host). -/
def matchBaseUrlAt (cs : List Char) : Option (List Char) :=
  if ("https://").data.isPrefixOf cs then
    let host := (cs.drop 8).takeWhile (fun c => c ≠ '/')
    if host.isEmpty then none else some (("https://").data ++ host)
  else if ("http://").data.isPrefixOf cs then
    let host := (cs.drop 7).takeWhile (fun c => c ≠ '/')
    if host.isEmpty then none else some (("http://").data ++ host)
  else none

/-- Leftmost match of `https?://[^/]+` over the string, as `re.search` finds
it (`scrape.py:91`). -/
def searchBaseUrl : List Char → Option (List Char)
  | [] => none
  | c :: rest =>
    match matchBaseUrlAt (c :: rest) with
    | some m => some m
    | none => searchBaseUrl rest

/-- Match of `/web/(\d+)/` anchored at the head of `cs`, returning the digit
group.  The greedy `\d+` must be followed by a slash; a shorter run of
digits would end at a digit, so only the maximal run can match. -/
def matchWebTsAt (cs : List Char) : Option (List Char) :=
  if ("/web/").data.isPrefixOf cs then
    let rest := cs.drop 5
    let digits := rest.takeWhile (fun c => c.isDigit)
    if digits.isEmpty then none
    else if (rest.drop digits.length).head? = some '/' then some digits
    else none
  else none

/-- Leftmost match of `/web/(\d+)/` over the string (`scrape.py:38`). -/
def searchWebTs : List Char → Option (List Char)
  | [] => none
  | c :: rest =>
    match matchWebTsAt (c :: rest) with
    | some m => some m
    | none => searchWebTs rest

/-- Timestamp extraction of `find_mp3_urls_from_archive`
(`scrape.py:38-39`): group 1 of the first `/web/(\d+)/` match, or `None`. -/
def extractWaybackTimestamp (archive_url : String) : Option String :=
  (searchWebTs archive_url.data).map String.mk

/-- Model of `construct_wayback_url` (`scrape.py:77-97`).  The Python
signature declares `timestamp: str`, but the caller passes `None` when no
timestamp was extracted, so the parameter is an `Option String`; the falsy
test `if not timestamp` also fires on the empty string. -/
def construct_wayback_url (url archive_url : String) (timestamp : Option String)
    ( type_prefix : String) : String :=
  match timestamp with
  | none => url
  | some ts =>
    if ts = "" then url
    else if ("https://web.archive.org/web/").data.isPrefixOf url.data then
      url
    else if ("/web/").data.isPrefixOf url.data then
      ("https://web.archive.org") ++ url
    else if ("/").data.isPrefixOf url.data then
      match searchBaseUrl archive_url.data with
      | some base =>
        ("https://web.archive.org/web/") ++ ts ++ type_prefix ++ ("/")
          ++ String.mk base ++ url
      | none =>
        ("https://web.archive.org/web/") ++ ts ++ type_prefix ++ ("/")
          ++ String.mk url.data.tail
    else
      ("https://web.archive.org/web/") ++ ts ++ type_prefix ++ ("/") ++ url

/-- Resolution as `find_mp3_urls_from_archive` performs it
(`scrape.py:38-39` and `:51`): extract the timestamp from the archive page
URL, then construct the Wayback URL for the raw link. -/
def resolve (raw_url archive_page_url type_prefix : String) : String :=
  construct_wayback_url raw_url archive_page_url
    (extractWaybackTimestamp archive_page_url) type_prefix

/-! ### The resumable downloader `download_mp3` (`scrape.py:100-227`)

The call runs against an explicit environment: the filesystem state at the
destination path, whether the directory creation or the existence check
raises, the network outcome of each attempt, and the jitter samples.
Everything inside the `for` loop sits inside `try`/`except` blocks that
catch every exception, so exceptions there are modelled as caught values.
Three sites run before the loop and outside every `try` and can raise to
the caller: the `mkdir` of line 140, the `urlparse` of line 145 (reached
only when no filename is supplied), and the
`filepath.exists() and filepath.stat().st_size > 0` check of line 156
(reached only when `force_download` is false; `pathlib` swallows only
missing-file errors there, a `PermissionError` propagates). -/

/-- Outcome of the HTTP request of one attempt of the retry loop: a
`requests`-level exception (`scrape.py:202`), any other exception
(`scrape.py:215`), or a 2xx streamed response whose body holds the given
number of bytes. -/
inductive NetResponse where
  | netError (msg : String)
  | otherError (msg : String)
  | body (size : Nat)
deriving DecidableEq

/-- Environment of one `download_mp3` call: the error message when
`Path(destination_dir).mkdir` raises (`scrape.py:140`), the error message
when the `filepath.exists()`/`filepath.stat()` pre-check of
`scrape.py:156` raises (e.g. a `PermissionError` on an unsearchable
directory — the check runs only when `force_download` is false), the size
of a pre-existing file at the computed destination path (`none` when
absent), the network outcome of each attempt, and the
`random.uniform(0, 2)` sample drawn for the backoff sleep after each
failed attempt. -/
structure DownloadEnv where
  mkdirError : Option String
  statError : Option String
  fileSize : Option Nat
  net : Nat → NetResponse
  jitter : Nat → Rat

/-- The tuple `(success, filepath, error_message)` that `download_mp3`
returns (`scrape.py:107`). -/
structure PyResult where
  success : Bool
  filepath : Option String
  error : Option String
deriving DecidableEq

/-- Observable effects of one `download_mp3` call: HTTP requests issued,
backoff sleeps performed (in seconds), and the file at the destination
path when the call ends (`none` when absent). -/
structure DownloadTrace where
  requests : Nat
  sleeps : List Rat
  finalFile : Option Nat
deriving DecidableEq

/-- Path component of a URL as `urlparse(url).path` yields it for the
fully qualified `http(s)` URLs this program passes around: the fragment
(from the first `#`) and the query (from the first `?`) are cut off, and
a leading `scheme://` plus authority is stripped up to the following
slash.  Scheme-less strings are returned whole, as `urlparse` does. -/
def urlparsePath (url : String) : List Char :=
  let pq := (url.data.takeWhile (fun c => c ≠ '#')).takeWhile (fun c => c ≠ '?')
  if ("https://").data.isPrefixOf pq then (pq.drop 8).dropWhile (fun c => c ≠ '/')
  else if ("http://").data.isPrefixOf pq then (pq.drop 7).dropWhile (fun c => c ≠ '/')
  else pq

/-- Final path component, as `Path(p).name` computes it: the last
slash-separated segment, a trailing slash being normalised away.
(`pathlib` also drops bare `.` segments; none occur here.) -/
def pathName (p : List Char) : List Char :=
  (((p.splitOn '/').filter (fun seg => !seg.isEmpty)).getLast?).getD []

/-- Authority (netloc) of a URL as `urlsplit` extracts it for the
`http(s)` shapes reaching this program: the characters after `scheme://`
up to the first `/`, `?` or `#`.  Scheme-less strings carry no netloc. -/
def urlNetloc (url : String) : List Char :=
  if ("https://").data.isPrefixOf url.data then
    (url.data.drop 8).takeWhile (fun c => c ≠ '/' ∧ c ≠ '?' ∧ c ≠ '#')
  else if ("http://").data.isPrefixOf url.data then
    (url.data.drop 7).takeWhile (fun c => c ≠ '/' ∧ c ≠ '?' ∧ c ≠ '#')
  else []

/-- Whether `urlparse(url)` raises `ValueError("Invalid IPv6 URL")`:
CPython's `urlsplit` rejects a netloc containing `[` without `]` or `]`
without `[` (e.g. `http://[bad/x.mp3`). -/
def urlparseValueError (url : String) : Bool :=
  let nl := urlNetloc url
  (nl.contains '[' && !nl.contains ']') || (nl.contains ']' && !nl.contains '[')

/-- Filename derivation of `scrape.py:143-150`: the final component of the
URL path, with `.mp3` appended when the lowercased name does not already
end in `.mp3`. -/
def deriveFilename (url : String) : String :=
  let name := String.mk (pathName (urlparsePath url))
  if (".mp3").data.isSuffixOf (name.data.map Char.toLower) then name
  else name ++ (".mp3")

/-- The `if not filename:` derivation block of `scrape.py:143-150` as the
caller observes it: a supplied non-empty filename is returned as is; a
falsy filename (Python `None` or the empty string) triggers
`urlparse(url)`, which runs outside every `try` and can raise. -/
def deriveOrRaise (url : String) (filename : Option String) : Except String String :=
  match filename with
  | some f =>
    if f = "" then
      if urlparseValueError url = true then Except.error (("Invalid IPv6 URL"))
      else .ok (deriveFilename url)
    else .ok f
  | none =>
    if urlparseValueError url = true then Except.error (("Invalid IPv6 URL"))
    else .ok (deriveFilename url)

/-- The filename `download_mp3` ends up using when the derivation does not
raise. -/
def effectiveFilename (url : String) (filename : Option String) : String :=
  match filename with
  | some f => if f = "" then deriveFilename url else f
  | none => deriveFilename url

/-- Destination path `str(Path(destination_dir) / filename)`
(`scrape.py:152-153`).  An absolute filename replaces the directory and a
trailing slash on the directory is normalised away; deeper `pathlib`
normalisation (doubled slashes) is not modelled, no caller produces it. -/
def pathJoin (dir name : String) : String :=
  if name.data.head? = some '/' then name
  else if dir = "" then name
  else if dir.data.getLast? = some '/' then
    String.mk dir.data.dropLast ++ ("/") ++ name
  else dir ++ ("/") ++ name

/-- The pre-download check `filepath.exists() and filepath.stat().st_size > 0`
(`scrape.py:156`) against the modelled destination file. -/
def fileExistsNonempty : Option Nat → Bool
  | some s => decide (0 < s)
  | none => false

/-- Message of the `requests.exceptions.RequestException` branch
(`scrape.py:203`). -/
def netErrorMsg (msg : String) : String :=
  ("Network error: ") ++ msg

/-- Message of the generic `except Exception` branch (`scrape.py:216`). -/
def otherErrorMsg (url msg : String) : String :=
  ("Error downloading ") ++ url ++ (": ") ++ msg

/-- The defensive fall-through result of `scrape.py:227`. -/
def maxRetriesResult : PyResult :=
  ⟨false, none, some (("Maximum retry attempts reached"))⟩

/-- One backoff sleep,
`delay_between_retries * (2**attempt) + random.uniform(0, 2)`
(`scrape.py:209` and `scrape.py:221`). -/
def backoffSleep (env : DownloadEnv) (delay attempt : Nat) : Rat :=
  ((delay * 2 ^ attempt : Nat) : Rat) + env.jitter attempt

/-- The `for attempt in range(max_retries)` loop of `scrape.py:160-227`
over the list of remaining attempt indices.  A streamed 2xx response
writes the body, creating or truncating the destination file, then the
empty-file check of `scrape.py:195-200` either returns success or unlinks
the empty file and returns the terminal empty-body failure.  An exception
sleeps and continues when attempts remain (`attempt < max_retries - 1`)
and otherwise returns the error.  An exhausted list is the fall-through
`return` of `scrape.py:227`. -/
def downloadLoop (env : DownloadEnv) (url fp : String) (max_retries delay : Nat) :
    List Nat → Nat → List Rat → Option Nat → PyResult × DownloadTrace
  | [], reqs, sleeps, file =>
    (maxRetriesResult, ⟨reqs, sleeps, file⟩)
  | attempt :: rest, reqs, sleeps, file =>
    match env.net attempt with
    | .body size =>
      if 0 < size then
        (⟨true, some fp, none⟩, ⟨reqs + 1, sleeps, some size⟩)
      else
        (⟨false, none, some (("Downloaded file is empty"))⟩, ⟨reqs + 1, sleeps, none⟩)
    | .netError m =>
      if attempt < max_retries - 1 then
        downloadLoop env url fp max_retries delay rest (reqs + 1)
          (sleeps ++ [backoffSleep env delay attempt]) file
      else
        (⟨false, none, some (netErrorMsg m)⟩, ⟨reqs + 1, sleeps, file⟩)
    | .otherError m =>
      if attempt < max_retries - 1 then
        downloadLoop env url fp max_retries delay rest (reqs + 1)
          (sleeps ++ [backoffSleep env delay attempt]) file
      else
        (⟨false, none, some (otherErrorMsg url m)⟩, ⟨reqs + 1, sleeps, file⟩)

/-- Model of `download_mp3` (`scrape.py:100-227`).  `Except.error` is an
exception escaping the call; three pre-loop sites run outside every `try`
and can raise: the `mkdir` of line 140, the `urlparse` of line 145 when
the supplied filename is falsy, and the `exists()`/`stat()` pre-check of
line 156, which short-circuiting `and` reaches only when
`force_download` is false.  `Except.ok` carries the returned tuple
together with the observable trace.  The Python defaults are
`max_retries=3`, `delay_between_retries=5`, `force_download=False`. -/
def download_mp3 (env : DownloadEnv) (url destination_dir : String)
    (filename : Option String) (max_retries delay_between_retries : Nat)
    (force_download : Bool) : Except String (PyResult × DownloadTrace) :=
  match env.mkdirError with
  | some e => .error e
  | none =>
    match deriveOrRaise url filename with
    | .error e => .error e
    | .ok fname =>
      let filepath_str := pathJoin destination_dir fname
      let run : Except String (PyResult × DownloadTrace) :=
        .ok (downloadLoop env url filepath_str max_retries delay_between_retries
          (List.range max_retries) 0 [] env.fileSize)
      if force_download = false then
        match env.statError with
        | some e => .error e
        | none =>
          if fileExistsNonempty env.fileSize = true then
            .ok (⟨true, some filepath_str, none⟩, ⟨0, [], env.fileSize⟩)
          else run
      else run

/-! ### Directory reconciliation (`spotify.py` variants) -/

/-- The before/after reconciliation
`new_audio_files = current_audio_files - existing_in_default` of
`download_spotify_content` (`cratedigger/spotify.py:256-260`,
`extractor/spotify.py:303-307`): plain set difference over snapshots of
file paths. -/
def newly_appeared (before after : Finset String) : Finset String :=
  after \ before

/-! ### The flattening copier `copy_audio_files` (`convert.py:55-122`) -/

/-- Stem of a filename, as `Path(name).stem` computes it: the name up to
its last dot, when that dot is neither at position zero nor the final
character; otherwise the whole name. -/
def pyStem (name : List Char) : List Char :=
  match name.reverse.findIdx? (fun c => c == '.') with
  | none => name
  | some j =>
    let i := name.length - 1 - j
    if 0 < i ∧ i < name.length - 1 then name.take i else name

/-- Last extension of a filename, as `Path(name).suffix` computes it
(dot included), empty in the degenerate cases. -/
def pySuffix (name : List Char) : List Char :=
  match name.reverse.findIdx? (fun c => c == '.') with
  | none => []
  | some j =>
    let i := name.length - 1 - j
    if 0 < i ∧ i < name.length - 1 then name.drop i else []

/-- Collision candidate `f"{name}_{counter}{ext}"` of `convert.py:101-103`,
with `name = Path(file).stem` and `ext = Path(file).suffix`; Python's
`str(counter)` is decimal, `Nat.repr`. -/
def suffixName (file : String) (k : Nat) : String :=
  String.mk (pyStem file.data) ++ ("_") ++ Nat.repr k ++ String.mk (pySuffix file.data)

/-- The `while target_path.exists()` loop of `convert.py:100-105`: try
counters `k, k+1, ...` until a candidate is absent from the target
directory.  The source loop is unbounded; here `fuel` bounds the
iterations, and `searchFresh_found` below shows the fuel that
`copyTargetName` passes always suffices, so the `fuel = 0` branch is never
taken. -/
def searchFresh (existing : Finset String) (file : String) : Nat → Nat → Nat
  | 0, k => k
  | fuel + 1, k =>
    if suffixName file k ∈ existing then searchFresh existing file fuel (k + 1)
    else k

/-- Target filename chosen for one source basename by `copy_audio_files`
(`convert.py:95-105`): the basename itself when it is free in the target
directory, otherwise the first free numeric-suffix candidate counting
from 1. -/
def copyTargetName (existing : Finset String) (file : String) : String :=
  if file ∈ existing then
    suffixName file (searchFresh existing file (existing.card + 1) 1)
  else file

/-- One iteration of the copy loop of `copy_audio_files`
(`convert.py:95-113`): choose the collision-free target name, copy the
file there (the copy is modelled as succeeding), count it. -/
def copyStep (st : Finset String × Nat) (file : String) : Finset String × Nat :=
  (insert (copyTargetName st.1 file) st.1, st.2 + 1)

/-- Model of `copy_audio_files` (`convert.py:55-122`) over the matching
source basenames in walk order, starting from the set of filenames already
present in the target directory: final target set and copied count. -/
def copy_audio_files (target_init : Finset String) (files : List String) :
    Finset String × Nat :=
  files.foldl copyStep (target_init, 0)

/-! ### Decimal representation helpers

`suffixName` embeds `str(counter)` as `Nat.repr`; the claims about the
collision loop need `Nat.repr` to be injective, which Mathlib does not
provide.  `repDigits` is the specification of the digit list and `lval`
reads it back. -/

/-- Decimal digit characters of `n`, most significant first; shown below
to be what `Nat.toDigitsCore` produces. -/
def repDigits (n : Nat) : List Char :=
  if _h : n < 10 then [Nat.digitChar n]
  else repDigits (n / 10) ++ [Nat.digitChar (n % 10)]
termination_by n
decreasing_by exact Nat.div_lt_self (by omega) (by omega)

/-- Numeric value of a decimal digit character. -/
def chVal (c : Char) : Nat := c.toNat - 48

/-- Decimal reading of a digit string, most significant first. -/
def lval (l : List Char) : Nat := l.foldl (fun a c => 10 * a + chVal c) 0

/-! ## Theorems

First the archive URL resolver, then the reconciliation difference, then
the downloader, then the flattening copier. -/

private lemma mk_ne_empty {l : List Char} (h : l ≠ []) : String.mk l ≠ "" := by
  intro he
  exact h (congrArg String.data he)

private lemma matchWebTsAt_ne_nil {cs ds : List Char}
    (h : matchWebTsAt cs = some ds) : ds ≠ [] := by
  simp only [matchWebTsAt] at h
  split_ifs at h with h1 h2 h3
  rw [Option.some.injEq] at h
  subst h
  intro hnil
  exact h2 (by rw [hnil]; rfl)

private lemma searchWebTs_ne_nil : ∀ {cs ds : List Char},
    searchWebTs cs = some ds → ds ≠ []
  | [], _, h => by simp [searchWebTs] at h
  | c :: rest, ds, h => by
    simp only [searchWebTs] at h
    cases hm : matchWebTsAt (c :: rest) with
    | some m =>
      rw [hm] at h
      injection h with h
      rw [← h]
      exact matchWebTsAt_ne_nil hm
    | none =>
      rw [hm] at h
      exact searchWebTs_ne_nil h

private lemma extract_ts_ne_empty {a ts : String}
    (h : extractWaybackTimestamp a = some ts) : ts ≠ "" := by
  unfold extractWaybackTimestamp at h
  cases hs : searchWebTs a.data with
  | none => rw [hs] at h; cases h
  | some t =>
    rw [hs] at h
    simp only [Option.map] at h
    injection h with h
    rw [← h]
    exact mk_ne_empty (searchWebTs_ne_nil hs)

private lemma cons_isPrefixOf_cons (a b : Char) (as bs : List Char) :
    (a :: as).isPrefixOf (b :: bs) = (a == b && as.isPrefixOf bs) := rfl

private lemma isPrefixOf_false_of_head_ne {a b : Char} (as bs : List Char)
    (h : a ≠ b) : (a :: as).isPrefixOf (b :: bs) = false := by
  rw [cons_isPrefixOf_cons]
  simp [h]

private lemma construct_none (url a p : String) :
    construct_wayback_url url a none p = url := by
  simp only [construct_wayback_url]

private lemma construct_canonical {url : String} (a : String) {ts : String}
    (p : String) (hts : ts ≠ "")
    (h : ("https://web.archive.org/web/").data.isPrefixOf url.data = true) :
    construct_wayback_url url a (some ts) p = url := by
  simp only [construct_wayback_url]
  rw [if_neg hts, if_pos h]

private lemma construct_some_canonical (url a : String) {ts : String}
    (p : String) (hts : ts ≠ "") :
    ("https://web.archive.org/web/").data.isPrefixOf
      (construct_wayback_url url a (some ts) p).data = true := by
  simp only [construct_wayback_url]
  rw [if_neg hts]
  by_cases h1 : ("https://web.archive.org/web/").data.isPrefixOf url.data = true
  · rw [if_pos h1]; exact h1
  · rw [if_neg h1]
    by_cases h2 : ("/web/").data.isPrefixOf url.data = true
    · rw [if_pos h2]
      obtain ⟨t, ht⟩ := List.isPrefixOf_iff_prefix.mp h2
      rw [String.data_append, ← ht,
        show ("https://web.archive.org").data ++ (("/web/").data ++ t)
          = ("https://web.archive.org/web/").data ++ t by
            rw [← List.append_assoc]
            exact congrArg (fun l => l ++ t) (by decide)]
      simp
    · rw [if_neg h2]
      by_cases h3 : ("/").data.isPrefixOf url.data = true
      · rw [if_pos h3]
        cases hB : searchBaseUrl a.data with
        | some base => simp [List.append_assoc]
        | none => simp [List.append_assoc]
      · rw [if_neg h3]
        simp [List.append_assoc]

/-- C1 (corrected): at the claim's own example input the code does not
splice in the archived site's host `https://site.com`; it splices in the
first scheme+host occurring in the archive page URL, `https://example.org`
(the regex `https?://[^/]+` of `scrape.py:91` takes its leftmost match). -/
theorem resolve_site_relative_counterexample :
    resolve ("/foo/bar.mp3")
        ("https://example.org/web/20210101000000/https://site.com/page.html")
        ("im_")
      = ("https://web.archive.org/web/20210101000000im_/https://example.org/foo/bar.mp3")
    ∧ resolve ("/foo/bar.mp3")
        ("https://example.org/web/20210101000000/https://site.com/page.html")
        ("im_")
      ≠ ("https://web.archive.org/web/20210101000000im_/https://site.com/foo/bar.mp3") :=
  ⟨by decide, by decide⟩

/-- C1 (amended): for every site-relative raw URL and every archive page
URL with an extractable timestamp, the resolved URL is
`https://web.archive.org/web/{timestamp}{prefix}/{host}{raw_url}` where
`host` is the first scheme+host occurring anywhere in the archive page
URL — not the scheme+host of the archived site. -/
theorem resolve_site_relative (raw archive p : String) (t b : List Char)
    (h1 : raw.data.head? = some '/')
    (h2 : ("/web/").data.isPrefixOf raw.data = false)
    (h3 : searchWebTs archive.data = some t)
    (h4 : searchBaseUrl archive.data = some b) :
    resolve raw archive p
      = ("https://web.archive.org/web/") ++ String.mk t ++ p ++ ("/")
          ++ String.mk b ++ raw := by
  obtain ⟨tl, htl⟩ : ∃ tl, raw.data = '/' :: tl := by
    cases hd : raw.data with
    | nil => rw [hd] at h1; cases h1
    | cons c cs =>
      rw [hd] at h1
      injection h1 with h1
      exact ⟨cs, by rw [h1]⟩
  have hts : String.mk t ≠ "" := mk_ne_empty (searchWebTs_ne_nil h3)
  have hca : ("https://web.archive.org/web/").data.isPrefixOf raw.data = false := by
    rw [show ("https://web.archive.org/web/").data
          = 'h' :: ("ttps://web.archive.org/web/").data from rfl, htl]
    exact isPrefixOf_false_of_head_ne _ _ (by decide)
  have hsl : ("/").data.isPrefixOf raw.data = true := by
    rw [htl, show ("/").data = ['/'] from rfl]
    simp
  unfold resolve extractWaybackTimestamp
  rw [h3]
  simp only [Option.map]
  simp only [construct_wayback_url]
  rw [if_neg hts]
  rw [hca]
  rw [h2]
  simp only [Bool.false_eq_true, if_false]
  rw [hsl]
  simp only [if_true, h4]

/-- C1 witness: the amended theorem applied at the claim's example. -/
theorem resolve_site_relative_witness :
    (("/foo/bar.mp3") : String).data.head? = some '/'
    ∧ resolve ("/foo/bar.mp3")
        ("https://example.org/web/20210101000000/https://site.com/page.html")
        ("im_")
      = ("https://web.archive.org/web/") ++ String.mk (("20210101000000").data)
          ++ ("im_") ++ ("/") ++ String.mk (("https://example.org").data)
          ++ ("/foo/bar.mp3") :=
  ⟨by decide,
   resolve_site_relative _ _ _ _ _ (by decide) (by decide) (by decide) (by decide)⟩

/-- C5: resolution is the identity when the archive page URL carries no
`/web/<digits>/` timestamp, returns raw URLs already bearing the canonical
archive prefix unchanged, and is consequently idempotent. -/
theorem resolve_identity_idempotent (raw archive p : String) :
    (extractWaybackTimestamp archive = none → resolve raw archive p = raw)
    ∧ (("https://web.archive.org/web/").data.isPrefixOf raw.data = true →
        resolve raw archive p = raw)
    ∧ resolve (resolve raw archive p) archive p = resolve raw archive p := by
  refine ⟨?_, ?_, ?_⟩
  · intro h
    unfold resolve
    rw [h]
    exact construct_none _ _ _
  · intro h
    cases hE : extractWaybackTimestamp archive with
    | none => unfold resolve; rw [hE]; exact construct_none _ _ _
    | some ts =>
      unfold resolve
      rw [hE]
      exact construct_canonical archive p (extract_ts_ne_empty hE) h
  · cases hE : extractWaybackTimestamp archive with
    | none =>
      unfold resolve
      rw [hE]
      simp only [construct_none]
    | some ts =>
      have hts := extract_ts_ne_empty hE
      unfold resolve
      rw [hE]
      exact construct_canonical archive p hts
        (construct_some_canonical raw archive p hts)

/-- C5 witness: identity on a timestamp-less archive page URL and on an
already-resolved raw URL. -/
theorem resolve_identity_idempotent_witness :
    resolve ("/x.mp3") ("nope.html") ("im_") = ("/x.mp3")
    ∧ resolve ("https://web.archive.org/web/123/x")
        ("https://a.org/web/123/p.html") ("oe_")
      = ("https://web.archive.org/web/123/x") :=
  ⟨(resolve_identity_idempotent _ _ _).1 (by decide),
   (resolve_identity_idempotent _ _ _).2.1 (by decide)⟩

/-- C7 (corrected): the claim fails without the qualification that the new
element is absent from the before-snapshot: with
`before = {"x.mp3"}` and `after = before ∪ {"x.mp3"} = before`, the
difference is empty, not `{"x.mp3"}`. -/
theorem newly_appeared_counterexample :
    newly_appeared {("x.mp3")} ({("x.mp3")} ∪ {("x.mp3")}) = (∅ : Finset String)
    ∧ newly_appeared {("x.mp3")} ({("x.mp3")} ∪ {("x.mp3")})
        ≠ ({("x.mp3")} : Finset String) :=
  ⟨by decide, by decide⟩

/-- C7 (amended): the reconciliation is exactly the set difference
`after - before`; for an element `x` NOT already in `before`, adjoining
`x` makes the difference exactly `{x}`, and an unchanged snapshot gives
the empty difference. -/
theorem newly_appeared_diff (before after : Finset String) (x : String)
    (hx : x ∉ before) :
    (∀ y, y ∈ newly_appeared before after ↔ y ∈ after ∧ y ∉ before)
    ∧ (after = before ∪ {x} → newly_appeared before after = {x})
    ∧ (after = before → newly_appeared before after = ∅) := by
  refine ⟨?_, ?_, ?_⟩
  · intro y
    simp [newly_appeared]
  · intro h
    subst h
    ext y
    simp only [newly_appeared, Finset.mem_sdiff, Finset.mem_union,
      Finset.mem_singleton]
    constructor
    · rintro ⟨h1, h2⟩
      cases h1 with
      | inl h => exact absurd h h2
      | inr h => exact h
    · rintro rfl
      exact ⟨Or.inr rfl, hx⟩
  · intro h
    subst h
    simp [newly_appeared]

/-- C7 witness: the amended theorem at `before = ∅`, `x = "x.mp3"`. -/
theorem newly_appeared_witness :
    newly_appeared ∅ ({("x.mp3")} : Finset String) = {("x.mp3")} :=
  (newly_appeared_diff ∅ {("x.mp3")} ("x.mp3") (by decide)).2.1 (by simp)

private lemma head_cons_ne {a b : Char} {l1 l2 : List Char} (hab : a ≠ b) :
    a :: l1 ≠ b :: l2 := by
  intro h
  injection h with h1 _
  exact hab h1

private lemma netErrorMsg_ne (m : String) :
    netErrorMsg m ≠ ("Maximum retry attempts reached") := by
  intro h
  have hd := congrArg String.data h
  rw [netErrorMsg, String.data_append,
    show ("Network error: ").data = 'N' :: ("etwork error: ").data from rfl,
    show ("Maximum retry attempts reached").data
      = 'M' :: ("aximum retry attempts reached").data from rfl,
    List.cons_append] at hd
  exact head_cons_ne (by decide) hd

private lemma otherErrorMsg_ne (url m : String) :
    otherErrorMsg url m ≠ ("Maximum retry attempts reached") := by
  intro h
  have hd := congrArg String.data h
  simp only [otherErrorMsg, String.data_append] at hd
  simp only [List.cons_append] at hd
  exact head_cons_ne (by decide) hd

private lemma downloadLoop_ne_max (env : DownloadEnv) (url fp : String)
    (mr d : Nat) :
    ∀ (n a reqs : Nat) (sleeps : List Rat) (file : Option Nat),
      a + n = mr → 1 ≤ n →
      (downloadLoop env url fp mr d (List.range' a n) reqs sleeps file).1
        ≠ maxRetriesResult := by
  intro n
  induction n with
  | zero =>
    intro a reqs sleeps file _ h2
    exact absurd h2 (by omega)
  | succ k ih =>
    intro a reqs sleeps file hsum _
    rw [List.range'_succ]
    cases hnet : env.net a with
    | body size =>
      simp only [downloadLoop, hnet]
      by_cases hz : 0 < size
      · rw [if_pos hz]
        simp [maxRetriesResult]
      · rw [if_neg hz]
        intro hcontra
        have h3 : (some (("Downloaded file is empty")) : Option String)
            = some (("Maximum retry attempts reached")) :=
          congrArg PyResult.error hcontra
        exact absurd h3 (by decide)
    | netError m =>
      simp only [downloadLoop, hnet]
      by_cases hlt : a < mr - 1
      · rw [if_pos hlt]
        exact ih (a + 1) (reqs + 1) (sleeps ++ [backoffSleep env d a]) file
          (by omega) (by omega)
      · rw [if_neg hlt]
        intro hcontra
        exact netErrorMsg_ne m
          (by simpa [maxRetriesResult] using congrArg PyResult.error hcontra)
    | otherError m =>
      simp only [downloadLoop, hnet]
      by_cases hlt : a < mr - 1
      · rw [if_pos hlt]
        exact ih (a + 1) (reqs + 1) (sleeps ++ [backoffSleep env d a]) file
          (by omega) (by omega)
      · rw [if_neg hlt]
        intro hcontra
        exact otherErrorMsg_ne url m
          (by simpa [maxRetriesResult] using congrArg PyResult.error hcontra)

/-- C2 (corrected): the skip path returns no distinct tagged variant — its
return value `(True, filepath, None)` is byte-for-byte the value a fresh
successful download returns, as the two concrete runs here show; the rest
of the claim holds: the skip fires immediately with zero network
requests. -/
private lemma deriveOrRaise_some (url : String) {f : String} (hf : f ≠ "") :
    deriveOrRaise url (some f) = .ok f := by
  simp [deriveOrRaise, hf]

private lemma deriveOrRaise_ok (url : String) (fn : Option String)
    (hup : urlparseValueError url = false) :
    deriveOrRaise url fn = .ok (effectiveFilename url fn) := by
  cases fn with
  | none => simp [deriveOrRaise, effectiveFilename, hup]
  | some f =>
    by_cases hf : f = ""
    · simp [deriveOrRaise, effectiveFilename, hf, hup]
    · simp [deriveOrRaise, effectiveFilename, hf]

private lemma deriveOrRaise_error {url : String} {fn : Option String}
    {e : String} (h : deriveOrRaise url fn = .error e) :
    (fn = none ∨ fn = some ("")) ∧ urlparseValueError url = true := by
  cases fn with
  | none =>
    cases hb : urlparseValueError url with
    | true => exact ⟨Or.inl rfl, rfl⟩
    | false => simp [deriveOrRaise, hb] at h
  | some f =>
    by_cases hf : f = ""
    · subst hf
      cases hb : urlparseValueError url with
      | true => exact ⟨Or.inr rfl, rfl⟩
      | false => simp [deriveOrRaise, hb] at h
    · simp [deriveOrRaise, hf] at h

private lemma deriveOrRaise_ok_not {url : String} {fn : Option String}
    {fname : String} (h : deriveOrRaise url fn = .ok fname) :
    ¬((fn = none ∨ fn = some ("")) ∧ urlparseValueError url = true) := by
  rintro ⟨hfa | hfa, hb⟩ <;> subst hfa <;> simp [deriveOrRaise, hb] at h

private lemma download_mp3_run (env : DownloadEnv) (url dir : String)
    (fn : Option String) (mr d : Nat) (force : Bool)
    (hm : env.mkdirError = none) (hup : urlparseValueError url = false)
    (hst : env.statError = none)
    (hns : ¬(force = false ∧ fileExistsNonempty env.fileSize = true)) :
    download_mp3 env url dir fn mr d force
      = .ok (downloadLoop env url (pathJoin dir (effectiveFilename url fn))
          mr d (List.range mr) 0 [] env.fileSize) := by
  simp only [download_mp3, hm, deriveOrRaise_ok url fn hup, hst]
  by_cases hforce : force = false
  · rw [if_pos hforce, if_neg (fun hc => hns ⟨hforce, hc⟩)]
  · rw [if_neg hforce]

private lemma download_mp3_skip (env : DownloadEnv) (url dir : String)
    (fn : Option String) (mr d : Nat)
    (hm : env.mkdirError = none) (hup : urlparseValueError url = false)
    (hst : env.statError = none)
    (hfe : fileExistsNonempty env.fileSize = true) :
    download_mp3 env url dir fn mr d false
      = .ok (⟨true, some (pathJoin dir (effectiveFilename url fn)), none⟩,
          ⟨0, [], env.fileSize⟩) := by
  simp only [download_mp3, hm, deriveOrRaise_ok url fn hup, hst]
  rw [if_pos trivial, if_pos hfe]

/-- C2 (corrected): the skip path returns no distinct tagged variant — its
return value `(True, filepath, None)` is byte-for-byte the value a fresh
successful download returns, as the two concrete runs here show; the rest
of the claim holds: the skip fires immediately with zero network
requests. -/
theorem download_skip_counterexample :
    (download_mp3 ⟨none, none, some 5, fun _ => NetResponse.body 10, fun _ => 1⟩
        ("http://h/a.mp3") ("d") (some ("a.mp3")) 3 5 false).map Prod.fst
      = (download_mp3 ⟨none, none, none, fun _ => NetResponse.body 10, fun _ => 1⟩
        ("http://h/a.mp3") ("d") (some ("a.mp3")) 3 5 false).map Prod.fst
    ∧ (download_mp3 ⟨none, none, some 5, fun _ => NetResponse.body 10, fun _ => 1⟩
        ("http://h/a.mp3") ("d") (some ("a.mp3")) 3 5 false)
      = .ok (⟨true, some ("d/a.mp3"), none⟩, ⟨0, [], some 5⟩) :=
  ⟨rfl, rfl⟩

/-- C2 (amended): with `force` false and a file of size `s > 0` at the
destination, the call returns `(True, filepath, None)` immediately — the
same value shape as a success, not a distinct variant — and issues no
network request (zero requests, no sleeps, file untouched). -/
theorem download_skip_existing (env : DownloadEnv) (url dir f : String)
    (mr d s : Nat) (hm : env.mkdirError = none) (hst : env.statError = none)
    (hf : env.fileSize = some s) (hs : 0 < s) (hfn : f ≠ "") :
    download_mp3 env url dir (some f) mr d false
      = .ok (⟨true, some (pathJoin dir f), none⟩, ⟨0, [], some s⟩) := by
  simp only [download_mp3, hm, deriveOrRaise_some url hfn, hst, hf]
  rw [if_pos trivial, if_pos (by simp [fileExistsNonempty, hs])]

/-- C2 witness: the amended theorem at a concrete environment. -/
theorem download_skip_existing_witness :
    download_mp3 ⟨none, none, some 7, fun _ => NetResponse.netError ("x"),
        fun _ => 0⟩ ("http://h/b.mp3") ("out") (some ("b.mp3")) 3 5 false
      = .ok (⟨true, some (pathJoin ("out") ("b.mp3")), none⟩, ⟨0, [], some 7⟩) :=
  download_skip_existing _ _ _ _ _ _ _ rfl rfl rfl (by decide) (by decide)

/-- C3: a 2xx response with an empty body is terminal — the empty file is
unlinked, the call returns `(False, None, "Downloaded file is empty")`
after exactly one request with no retries and no sleeps, and no file
remains at the destination path. -/
theorem download_empty_body (env : DownloadEnv) (url dir : String)
    (fn : Option String) (mr d : Nat) (force : Bool)
    (hm : env.mkdirError = none) (hup : urlparseValueError url = false)
    (hst : env.statError = none)
    (hns : ¬(force = false ∧ fileExistsNonempty env.fileSize = true))
    (hmr : 1 ≤ mr) (hnet : env.net 0 = NetResponse.body 0) :
    download_mp3 env url dir fn mr d force
      = .ok (⟨false, none, some (("Downloaded file is empty"))⟩, ⟨1, [], none⟩) := by
  obtain ⟨k, rfl⟩ : ∃ k, mr = k + 1 := ⟨mr - 1, by omega⟩
  rw [download_mp3_run env url dir fn (k + 1) d force hm hup hst hns]
  rw [List.range_eq_range', List.range'_succ]
  simp only [downloadLoop, hnet]
  rw [if_neg (by omega : ¬ (0 : Nat) < 0)]

/-- C3 witness: concrete run against an always-empty body. -/
theorem download_empty_body_witness :
    download_mp3 ⟨none, none, none, fun _ => NetResponse.body 0, fun _ => 0⟩
        ("http://h/c.mp3") ("out") none 3 5 false
      = .ok (⟨false, none, some (("Downloaded file is empty"))⟩, ⟨1, [], none⟩) :=
  download_empty_body _ _ _ _ _ _ _ rfl (by decide) rfl
    (by simp [fileExistsNonempty]) (by decide) rfl

/-- C4: with two network failures then a success under `max_retries = 3`,
the call succeeds after exactly the sleeps
`base_delay * 2^0 + jitter(0)` and `base_delay * 2^1 + jitter(1)` —
exponential backoff, monotonic once the bounded jitter is ignored — and a
network failure on the last attempt returns `Failed` carrying that
error's message. -/
theorem download_backoff (env env2 : DownloadEnv) (url dir : String)
    (fn : Option String) (d : Nat) (m0 m1 em : String) (s : Nat)
    (hup : urlparseValueError url = false)
    (hm : env.mkdirError = none) (hst : env.statError = none)
    (hfs : fileExistsNonempty env.fileSize = false)
    (h0 : env.net 0 = NetResponse.netError m0)
    (h1 : env.net 1 = NetResponse.netError m1)
    (h2 : env.net 2 = NetResponse.body s) (hs : 0 < s)
    (g0 : env2.mkdirError = none) (gst : env2.statError = none)
    (g1 : fileExistsNonempty env2.fileSize = false)
    (g2 : env2.net 0 = NetResponse.netError em)
    (g3 : env2.net 1 = NetResponse.netError em)
    (g4 : env2.net 2 = NetResponse.netError em) :
    (∃ fp, download_mp3 env url dir fn 3 d false
      = .ok (⟨true, some fp, none⟩,
          ⟨3, [((d * 2 ^ 0 : Nat) : Rat) + env.jitter 0,
               ((d * 2 ^ 1 : Nat) : Rat) + env.jitter 1], some s⟩))
    ∧ download_mp3 env2 url dir fn 3 d false
      = .ok (⟨false, none, some (netErrorMsg em)⟩,
          ⟨3, [((d * 2 ^ 0 : Nat) : Rat) + env2.jitter 0,
               ((d * 2 ^ 1 : Nat) : Rat) + env2.jitter 1], env2.fileSize⟩)
    ∧ (d * 2 ^ 0 : Nat) ≤ d * 2 ^ 1 := by
  refine ⟨⟨pathJoin dir (effectiveFilename url fn), ?_⟩, ?_,
    by simp only [pow_zero, pow_one, Nat.mul_one]; omega⟩
  · rw [download_mp3_run env url dir fn 3 d false hm hup hst
      (by rw [hfs]; rintro ⟨_, hc⟩; cases hc)]
    rw [show List.range 3 = [0, 1, 2] from rfl]
    simp only [downloadLoop, h0, h1, h2]
    rw [if_pos (by omega : (0 : Nat) < 3 - 1), if_pos (by omega : (1 : Nat) < 3 - 1),
      if_pos hs]
    rfl
  · rw [download_mp3_run env2 url dir fn 3 d false g0 hup gst
      (by rw [g1]; rintro ⟨_, hc⟩; cases hc)]
    rw [show List.range 3 = [0, 1, 2] from rfl]
    simp only [downloadLoop, g2, g3, g4]
    rw [if_pos (by omega : (0 : Nat) < 3 - 1), if_pos (by omega : (1 : Nat) < 3 - 1),
      if_neg (by omega : ¬ (2 : Nat) < 3 - 1)]
    rfl

/-- C4 witness: the theorem at concrete environments (constant jitter 1
and 0 respectively), so the two sleeps are `d + 1, 2d + 1` and `d, 2d`. -/
theorem download_backoff_witness :
    (∃ fp, download_mp3
        ⟨none, none, none, fun i => if i < 2 then NetResponse.netError ("boom")
          else NetResponse.body 7, fun _ => 1⟩
        ("u") ("out") (some ("f.mp3")) 3 5 false
      = .ok (⟨true, some fp, none⟩,
          ⟨3, [((5 * 2 ^ 0 : Nat) : Rat) + 1, ((5 * 2 ^ 1 : Nat) : Rat) + 1],
            some 7⟩))
    ∧ download_mp3
        ⟨none, none, none, fun _ => NetResponse.netError ("down"), fun _ => 0⟩
        ("u") ("out") (some ("f.mp3")) 3 5 false
      = .ok (⟨false, none, some (netErrorMsg ("down"))⟩,
          ⟨3, [((5 * 2 ^ 0 : Nat) : Rat) + 0, ((5 * 2 ^ 1 : Nat) : Rat) + 0],
            none⟩)
    ∧ (5 * 2 ^ 0 : Nat) ≤ 5 * 2 ^ 1 :=
  download_backoff _ _ _ _ _ _ _ _ _ _ (by decide) rfl rfl rfl rfl rfl rfl
    (by decide) rfl rfl rfl rfl rfl rfl

/-- C6 (corrected): the claim that `download_mp3` never raises past its
boundary fails at three pre-loop sites, each outside every `try`: the
`mkdir` of `scrape.py:140`, the `exists()`/`stat()` pre-check of
`scrape.py:156`, and the `urlparse` of `scrape.py:145`, which raises
`ValueError("Invalid IPv6 URL")` on `http://[bad/x.mp3` when no filename
is supplied. -/
theorem download_preloop_raises :
    download_mp3 ⟨some ("Permission denied"), none, none,
        fun _ => NetResponse.body 1, fun _ => 0⟩
        ("http://h/a.mp3") ("d") none 3 5 false
      = .error ("Permission denied")
    ∧ download_mp3 ⟨none, some ("Permission denied"), none,
        fun _ => NetResponse.body 1, fun _ => 0⟩
        ("http://h/a.mp3") ("d") none 3 5 false
      = .error ("Permission denied")
    ∧ download_mp3 ⟨none, none, none, fun _ => NetResponse.body 1, fun _ => 0⟩
        ("http://[bad/x.mp3") ("d") none 3 5 false
      = .error ("Invalid IPv6 URL") :=
  ⟨rfl, rfl, rfl⟩

/-- C6 (amended): `download_mp3` raises past its boundary exactly when one
of the three pre-loop sites outside every `try` fails — the directory
creation of line 140, the `urlparse` filename derivation of line 145
(reached only for a falsy filename), or the `exists()`/`stat()` pre-check
of line 156 (reached only when `force_download` is false); once the retry
loop is entered, every exception is caught and turned into a returned
tagged result. -/
theorem download_no_raise (env : DownloadEnv) (url dir : String)
    (fn : Option String) (mr d : Nat) (force : Bool) :
    (download_mp3 env url dir fn mr d force).isOk = false
      ↔ (env.mkdirError ≠ none
          ∨ ((fn = none ∨ fn = some ("")) ∧ urlparseValueError url = true)
          ∨ (force = false ∧ env.statError ≠ none)) := by
  cases hmk : env.mkdirError with
  | some e => simp [download_mp3, hmk, Except.isOk, Except.toBool]
  | none =>
    cases hdr : deriveOrRaise url fn with
    | error e =>
      have hfa := deriveOrRaise_error hdr
      simp [download_mp3, hmk, hdr, Except.isOk, Except.toBool, hfa]
    | ok fname =>
      have hok := deriveOrRaise_ok_not hdr
      by_cases hforce : force = false
      · cases hst : env.statError with
        | some e =>
          simp [download_mp3, hmk, hdr, hforce, hst, Except.isOk,
            Except.toBool, hok]
        | none =>
          by_cases hfe : fileExistsNonempty env.fileSize = true
          · simp [download_mp3, hmk, hdr, hforce, hst, hfe, Except.isOk,
              Except.toBool, hok]
          · simp [download_mp3, hmk, hdr, hforce, hst, hfe, Except.isOk,
              Except.toBool, hok]
      · simp [download_mp3, hmk, hdr, hforce, Except.isOk, Except.toBool, hok]

/-- C9: with the skip rule not firing, the defensive fallback result
`Failed("Maximum retry attempts reached")` is returned iff
`max_retries <= 0` (the loop body never runs); with `max_retries = 0` the
call returns the fallback with zero network requests. -/
theorem download_fallback_iff (env : DownloadEnv) (url dir : String)
    (fn : Option String) (mr d : Nat) (force : Bool)
    (hm : env.mkdirError = none) (hup : urlparseValueError url = false)
    (hst : env.statError = none)
    (hns : ¬(force = false ∧ fileExistsNonempty env.fileSize = true)) :
    ((download_mp3 env url dir fn mr d force).map Prod.fst
        = .ok maxRetriesResult ↔ mr ≤ 0)
    ∧ (mr = 0 →
        download_mp3 env url dir fn mr d force
          = .ok (maxRetriesResult, ⟨0, [], env.fileSize⟩)) := by
  constructor
  · rw [download_mp3_run env url dir fn mr d force hm hup hst hns]
    simp only [Except.map, Except.ok.injEq]
    constructor
    · intro h
      by_contra hmr
      rw [List.range_eq_range'] at h
      exact downloadLoop_ne_max env url _ mr d mr 0 0 [] env.fileSize
        (by omega) (by omega) h
    · intro h
      have h0 : mr = 0 := by omega
      subst h0
      rfl
  · intro h
    subst h
    rw [download_mp3_run env url dir fn 0 d force hm hup hst hns]
    rfl

/-- C9 witness: `max_retries = 0` returns the fallback without any
request. -/
theorem download_fallback_witness :
    download_mp3 ⟨none, none, none, fun _ => NetResponse.body 1, fun _ => 0⟩
        ("u") ("d") (some ("f.mp3")) 0 5 true
      = .ok (maxRetriesResult, ⟨0, [], none⟩) :=
  (download_fallback_iff _ _ _ _ _ _ _ rfl (by decide) rfl (by simp)).2 rfl

/-- C10: a skipped download and a fresh successful download return the
identical tuple `(True, filepath, None)` — a caller cannot tell
`SkippedExisting` from `Success` by inspecting the result. -/
theorem download_skip_indistinguishable (env1 env2 : DownloadEnv)
    (url dir : String) (fn : Option String) (mr d s z : Nat)
    (hup : urlparseValueError url = false)
    (h1m : env1.mkdirError = none) (h1st : env1.statError = none)
    (h1f : env1.fileSize = some s) (h1s : 0 < s)
    (h2m : env2.mkdirError = none) (h2st : env2.statError = none)
    (h2f : fileExistsNonempty env2.fileSize = false)
    (h2n : env2.net 0 = NetResponse.body z) (hz : 0 < z) (hmr : 1 ≤ mr) :
    (download_mp3 env1 url dir fn mr d false).map Prod.fst
      = (download_mp3 env2 url dir fn mr d false).map Prod.fst := by
  obtain ⟨k, rfl⟩ : ∃ k, mr = k + 1 := ⟨mr - 1, by omega⟩
  rw [download_mp3_skip env1 url dir fn (k + 1) d h1m hup h1st
      (by rw [h1f]; simp [fileExistsNonempty, h1s]),
    download_mp3_run env2 url dir fn (k + 1) d false h2m hup h2st
      (by rw [h2f]; rintro ⟨_, hc⟩; cases hc)]
  rw [List.range_eq_range', List.range'_succ]
  simp only [downloadLoop, h2n]
  rw [if_pos hz]
  rfl

/-- C10 witness: the theorem at concrete environments. -/
theorem download_skip_indistinguishable_witness :
    (download_mp3 ⟨none, none, some 3, fun _ => NetResponse.netError ("x"),
        fun _ => 0⟩ ("http://h/d.mp3") ("out") none 3 5 false).map Prod.fst
      = (download_mp3 ⟨none, none, none, fun _ => NetResponse.body 9,
        fun _ => 0⟩ ("http://h/d.mp3") ("out") none 3 5 false).map Prod.fst :=
  download_skip_indistinguishable _ _ _ _ _ _ _ _ _ (by decide) rfl rfl rfl
    (by decide) rfl rfl rfl rfl (by decide) (by decide)

private lemma lval_append_digit (l : List Char) (c : Char) :
    lval (l ++ [c]) = 10 * lval l + chVal c := by
  unfold lval
  rw [List.foldl_append]
  rfl

private lemma chVal_digitChar : ∀ n < 10, chVal (Nat.digitChar n) = n := by decide

private lemma repDigits_lt {n : Nat} (h : n < 10) :
    repDigits n = [Nat.digitChar n] := by
  unfold repDigits
  rw [dif_pos h]

private lemma repDigits_ge {n : Nat} (h : ¬ n < 10) :
    repDigits n = repDigits (n / 10) ++ [Nat.digitChar (n % 10)] := by
  conv_lhs => rw [repDigits]
  rw [dif_neg h]

private lemma lval_repDigits (n : Nat) : lval (repDigits n) = n := by
  induction n using Nat.strong_induction_on with
  | _ n ih =>
    by_cases h : n < 10
    · rw [repDigits_lt h]
      simp [lval, chVal_digitChar n h]
    · rw [repDigits_ge h, lval_append_digit,
        ih (n / 10) (Nat.div_lt_self (by omega) (by omega)),
        chVal_digitChar (n % 10) (Nat.mod_lt _ (by omega))]
      exact Nat.div_add_mod n 10

private lemma repDigits_inj {m n : Nat} (h : repDigits m = repDigits n) :
    m = n := by
  have hv := congrArg lval h
  rwa [lval_repDigits, lval_repDigits] at hv

private lemma toDigitsCore_succ (fuel n : Nat) (acc : List Char) :
    Nat.toDigitsCore 10 (fuel + 1) n acc =
      if n / 10 = 0 then Nat.digitChar (n % 10) :: acc
      else Nat.toDigitsCore 10 fuel (n / 10) (Nat.digitChar (n % 10) :: acc) :=
  rfl

private lemma toDigitsCore_eq_rep :
    ∀ (k n : Nat) (acc : List Char), n < 10 ^ (k + 1) →
      Nat.toDigitsCore 10 (k + 1) n acc = repDigits n ++ acc := by
  intro k
  induction k with
  | zero =>
    intro n acc hn
    have h10 : n < 10 := by simpa using hn
    rw [toDigitsCore_succ, if_pos (Nat.div_eq_of_lt h10), repDigits_lt h10,
      Nat.mod_eq_of_lt h10]
    rfl
  | succ k ih =>
    intro n acc hn
    rw [toDigitsCore_succ]
    by_cases hdiv : n / 10 = 0
    · have h10 : n < 10 := (Nat.div_eq_zero_iff (by omega)).mp hdiv
      rw [if_pos hdiv, repDigits_lt h10, Nat.mod_eq_of_lt h10]
      rfl
    · have hge : ¬ n < 10 := fun hc =>
        hdiv ((Nat.div_eq_zero_iff (by omega)).mpr hc)
      have hlt : n / 10 < 10 ^ (k + 1) := by
        rw [Nat.div_lt_iff_lt_mul (by omega)]
        calc n < 10 ^ (k + 1 + 1) := hn
        _ = 10 ^ (k + 1) * 10 := pow_succ 10 (k + 1)
      rw [if_neg hdiv, ih (n / 10) (Nat.digitChar (n % 10) :: acc) hlt,
        repDigits_ge hge, List.append_assoc]
      rfl

private lemma nat_lt_ten_pow (n : Nat) : n < 10 ^ (n + 1) :=
  calc n < 2 ^ n := Nat.lt_two_pow n
  _ ≤ 10 ^ n := Nat.pow_le_pow_left (by omega) n
  _ ≤ 10 ^ (n + 1) := Nat.pow_le_pow_right (by omega) (by omega)

private lemma repr_data_eq_repDigits (n : Nat) :
    (Nat.repr n).data = repDigits n := by
  have h : Nat.toDigits 10 n = repDigits n := by
    unfold Nat.toDigits
    rw [toDigitsCore_eq_rep n n [] (nat_lt_ten_pow n)]
    simp
  calc (Nat.repr n).data = Nat.toDigits 10 n := rfl
  _ = repDigits n := h

private lemma repr_injective {m n : Nat} (h : Nat.repr m = Nat.repr n) :
    m = n := by
  refine repDigits_inj ?_
  rw [← repr_data_eq_repDigits, ← repr_data_eq_repDigits, h]

private lemma suffixName_inj (file : String) {j k : Nat}
    (h : suffixName file j = suffixName file k) : j = k := by
  unfold suffixName at h
  have hd := congrArg String.data h
  simp only [String.data_append] at hd
  have h1 := List.append_cancel_right hd
  have h2 := List.append_cancel_left h1
  exact repr_injective (String.ext h2)

private lemma exists_fresh (existing : Finset String) (file : String) :
    ∃ j, j < existing.card + 1 ∧ suffixName file (1 + j) ∉ existing := by
  by_contra hc
  push_neg at hc
  have hmaps : ∀ a ∈ (Finset.univ : Finset (Fin (existing.card + 1))),
      suffixName file (1 + (a : Nat)) ∈ existing := fun a _ => hc a a.isLt
  have hinj : Set.InjOn (fun a : Fin (existing.card + 1) =>
      suffixName file (1 + (a : Nat)))
      (Finset.univ : Finset (Fin (existing.card + 1))) := by
    intro a _ b _ hab
    have hv := suffixName_inj file hab
    exact Fin.ext (by omega)
  have hle := Finset.card_le_card_of_injOn _ hmaps hinj
  simp at hle

private lemma searchFresh_found (existing : Finset String) (file : String) :
    ∀ (fuel k : Nat), (∃ j, j < fuel ∧ suffixName file (k + j) ∉ existing) →
      k ≤ searchFresh existing file fuel k
      ∧ suffixName file (searchFresh existing file fuel k) ∉ existing
      ∧ ∀ i, k ≤ i → i < searchFresh existing file fuel k →
          suffixName file i ∈ existing := by
  intro fuel
  induction fuel with
  | zero =>
    rintro k ⟨j, hj, _⟩
    exact absurd hj (by omega)
  | succ f ih =>
    rintro k ⟨j, hj, hfree⟩
    rw [searchFresh]
    by_cases hk : suffixName file k ∈ existing
    · rw [if_pos hk]
      have hj0 : j ≠ 0 := fun h0 => hfree (by rw [h0]; simpa using hk)
      obtain ⟨hle, hfr, hmin⟩ := ih (k + 1)
        ⟨j - 1, by omega, by rw [show k + 1 + (j - 1) = k + j by omega]; exact hfree⟩
      refine ⟨by omega, hfr, ?_⟩
      intro i hki hilt
      by_cases hik : i = k
      · rw [hik]; exact hk
      · exact hmin i (by omega) hilt
    · rw [if_neg hk]
      exact ⟨Nat.le_refl k, hk, fun i h1 h2 => absurd (Nat.lt_of_le_of_lt h1 h2)
        (Nat.lt_irrefl k)⟩

private lemma copyTargetName_not_mem (ex : Finset String) (f : String) :
    copyTargetName ex f ∉ ex := by
  unfold copyTargetName
  by_cases hf : f ∈ ex
  · rw [if_pos hf]
    exact (searchFresh_found ex f (ex.card + 1) 1 (exists_fresh ex f)).2.1
  · rw [if_neg hf]
    exact hf

private lemma foldl_copyStep_count (fs : List String) :
    ∀ st : Finset String × Nat, (fs.foldl copyStep st).2 = st.2 + fs.length := by
  induction fs with
  | nil => intro st; simp
  | cons f rest ih =>
    intro st
    rw [List.foldl_cons, ih]
    simp [copyStep]
    omega

/-- C8: when a source basename already exists in the target directory the
copier picks `name_k.ext` for the least `k ≥ 1` whose candidate is absent;
no chosen target name ever collides with an existing file (nothing is
overwritten), and every source file is copied (the copied count equals the
number of matching source files). -/
theorem copy_audio_files_collision_policy (existing : Finset String)
    (file : String) (h : file ∈ existing) :
    (∃ k, 1 ≤ k ∧ copyTargetName existing file = suffixName file k
       ∧ suffixName file k ∉ existing
       ∧ ∀ i, 1 ≤ i → i < k → suffixName file i ∈ existing)
    ∧ (∀ (ex2 : Finset String) (f2 : String), copyTargetName ex2 f2 ∉ ex2)
    ∧ (∀ (t : Finset String) (fs : List String),
        (copy_audio_files t fs).2 = fs.length) := by
  refine ⟨?_, copyTargetName_not_mem, ?_⟩
  · obtain ⟨hle, hfr, hmin⟩ :=
      searchFresh_found existing file (existing.card + 1) 1 (exists_fresh existing file)
    refine ⟨searchFresh existing file (existing.card + 1) 1, hle, ?_, hfr, hmin⟩
    unfold copyTargetName
    rw [if_pos h]
  · intro t fs
    unfold copy_audio_files
    rw [foldl_copyStep_count]
    simp

/-- C8 witness: against a target holding `a.mp3` and `a_1.mp3`, the source
basename `a.mp3` is copied to `a_2.mp3`, the least free suffix. -/
theorem copy_audio_files_collision_policy_witness :
    copyTargetName {("a.mp3"), ("a_1.mp3")} ("a.mp3") = ("a_2.mp3")
    ∧ (∃ k, 1 ≤ k
        ∧ copyTargetName {("a.mp3"), ("a_1.mp3")} ("a.mp3")
            = suffixName ("a.mp3") k
        ∧ suffixName ("a.mp3") k ∉ ({("a.mp3"), ("a_1.mp3")} : Finset String)
        ∧ ∀ i, 1 ≤ i → i < k →
            suffixName ("a.mp3") i ∈ ({("a.mp3"), ("a_1.mp3")} : Finset String)) :=
  ⟨by decide, (copy_audio_files_collision_policy _ _ (by decide)).1⟩

end ExtractAudio
